import Mathlib

set_option linter.unusedVariables false

/-!
Verification of the session/auth component of `pos-toko-bugis-v2`
(`src/context/AuthContext.tsx`, plus the variant of the same file found in the
repository snapshot as `unnamed/part_000`).

The component keeps a session (`user : User | null`, `isLoading : Bool`) and a
persisted snapshot of the user in browser local storage under the fixed key
`tobaku_user`, serialized with `JSON.stringify` and restored with `JSON.parse`.

The embedding below models:
* JSON values (`Json`), a JSON parser (`parseJson`, modelling `JSON.parse`)
  and the serializer for the `User` object shape (`stringifyUser`, modelling
  `JSON.stringify` applied to the `userData` object literal built in `login`);
* the session state (`Session`), where `currentUser` is an `Option Json`
  because the code assigns the result of `JSON.parse` to the user state
  without any runtime validation;
* the operations `login` (both variants), `signup`, `logout` and the startup
  restore effect, with the responses of the external Supabase store supplied
  as explicit oracle inputs (`LookupResult`, `CheckResult`, `InsertResult`),
  covering success, error objects, and thrown exceptions (the `catch` paths).
-/

/-- JSON values. Numbers keep their source lexeme (the program never inspects
numeric values, only round-trips them). -/
inductive Json where
  | null
  | boolean (b : Bool)
  | number (lexeme : String)
  | str (s : String)
  | arr (elems : List Json)
  | obj (fields : List (String × Json))

/-! ### String escaping, modelling the `Quote` algorithm of `JSON.stringify` -/

/-- Lower-case hex digit for `n < 16` (as emitted by `JSON.stringify`). -/
def hexDigitChar (n : Nat) : Char :=
  if n < 10 then Char.ofNat ('0'.toNat + n) else Char.ofNat ('a'.toNat + (n - 10))

/-- Escape of a single character inside a JSON string literal, as performed by
`JSON.stringify`: quote and backslash are escaped, the five control characters
with short escapes use them, the other control characters use `\u00xx`, and
everything else is emitted literally. -/
def escapeChar (c : Char) : List Char :=
  if c = '"' then ['\\', '"']
  else if c = '\\' then ['\\', '\\']
  else if c = '\x08' then ['\\', 'b']
  else if c = '\x0c' then ['\\', 'f']
  else if c = '\n' then ['\\', 'n']
  else if c = '\r' then ['\\', 'r']
  else if c = '\t' then ['\\', 't']
  else if c.toNat < 32 then
    ['\\', 'u', '0', '0', hexDigitChar (c.toNat / 16), hexDigitChar (c.toNat % 16)]
  else [c]

/-- Escape a whole character sequence. -/
def escChars : List Char → List Char
  | [] => []
  | c :: cs => escapeChar c ++ escChars cs

/-! ### JSON parsing, modelling `JSON.parse`

All recursive parsing functions take an explicit fuel argument so that they
are structurally recursive (hence executable by the kernel).  The entry point
`parseJson` supplies `input length + 1` as fuel; every recursive call consumes
at least one input character per unit of fuel, so the fuel never runs out on
any input that is actually parseable. -/

/-- Whitespace accepted between JSON tokens. -/
def wsChar (c : Char) : Bool :=
  c = ' ' || c = '\n' || c = '\t' || c = '\r'

def skipWs : List Char → List Char
  | c :: rest => if wsChar c then skipWs rest else c :: rest
  | [] => []

/-- Numeric value of a hex digit, if the character is one. -/
def hexVal (c : Char) : Option Nat :=
  if '0' ≤ c ∧ c ≤ '9' then some (c.toNat - '0'.toNat)
  else if 'a' ≤ c ∧ c ≤ 'f' then some (c.toNat - 'a'.toNat + 10)
  else if 'A' ≤ c ∧ c ≤ 'F' then some (c.toNat - 'A'.toNat + 10)
  else none

/-- The single-character escapes accepted by `JSON.parse`. -/
def unescChar (c : Char) : Option Char :=
  if c = '"' then some '"'
  else if c = '\\' then some '\\'
  else if c = '/' then some '/'
  else if c = 'b' then some '\x08'
  else if c = 'f' then some '\x0c'
  else if c = 'n' then some '\n'
  else if c = 'r' then some '\r'
  else if c = 't' then some '\t'
  else none

/-- Parse the body of a JSON string literal (after the opening quote), up to
and including the closing quote; returns the decoded characters and the rest
of the input.  Unescaped control characters are rejected, as in `JSON.parse`. -/
def parseStringBody : Nat → List Char → Option (List Char × List Char)
  | 0, _ => none
  | fuel + 1, l =>
    match l with
    | [] => none
    | c :: rest =>
      if c = '"' then some ([], rest)
      else if c = '\\' then
        match rest with
        | [] => none
        | e :: rest2 =>
          if e = 'u' then
            match rest2 with
            | a :: b :: c3 :: d :: rest3 =>
              match hexVal a, hexVal b, hexVal c3, hexVal d with
              | some x, some y, some z, some w =>
                (parseStringBody fuel rest3).map
                  (fun p => (Char.ofNat (((x * 16 + y) * 16 + z) * 16 + w) :: p.1, p.2))
              | _, _, _, _ => none
            | _ => none
          else
            match unescChar e with
            | some c2 => (parseStringBody fuel rest2).map (fun p => (c2 :: p.1, p.2))
            | none => none
      else if c.toNat < 32 then none
      else (parseStringBody fuel rest).map (fun p => (c :: p.1, p.2))

/-- Integer part of a JSON number: `0`, or a nonzero digit followed by digits. -/
def parseIntPart : List Char → Option (List Char × List Char)
  | [] => none
  | c :: rest =>
    if c = '0' then some (['0'], rest)
    else if c.isDigit then
      match rest.span Char.isDigit with
      | (ds, r) => some (c :: ds, r)
    else none

/-- Optional fractional part: `.` followed by at least one digit. -/
def parseFrac : List Char → Option (List Char × List Char)
  | '.' :: rest =>
    (match rest.span Char.isDigit with
     | ([], _) => none
     | (ds, r) => some ('.' :: ds, r))
  | l => some ([], l)

/-- Optional exponent part: `e`/`E`, optional sign, at least one digit. -/
def parseExp : List Char → Option (List Char × List Char)
  | c :: rest =>
    if c = 'e' ∨ c = 'E' then
      match rest with
      | s :: rest2 =>
        if s = '+' ∨ s = '-' then
          match rest2.span Char.isDigit with
          | ([], _) => none
          | (ds, r) => some (c :: s :: ds, r)
        else
          match rest.span Char.isDigit with
          | ([], _) => none
          | (ds, r) => some (c :: ds, r)
      | [] => none
    else some ([], c :: rest)
  | [] => some ([], [])

/-- Parse a JSON number, returning its lexeme. -/
def parseNumber (l : List Char) : Option (List Char × List Char) :=
  let sl : List Char × List Char :=
    match l with
    | '-' :: r => (['-'], r)
    | _ => ([], l)
  match parseIntPart sl.2 with
  | none => none
  | some (ip, l2) =>
    match parseFrac l2 with
    | none => none
    | some (fp, l3) =>
      match parseExp l3 with
      | none => none
      | some (ep, l4) => some (sl.1 ++ ip ++ fp ++ ep, l4)

/-- Parse one member (`"key": value`) of a JSON object, given a parser `pv`
for the value.  Returns the extended accumulator and either `.inl l2` (a comma
followed: continue at `l2`) or `.inr r` (a closing brace: done, rest `r`). -/
def parseMemberOne (pv : List Char → Option (Json × List Char))
    (l : List Char) (acc : List (String × Json)) :
    Option (List (String × Json) × (List Char ⊕ List Char)) :=
  match l with
  | [] => none
  | c :: rest =>
    if c = '"' then
      match parseStringBody (rest.length + 1) rest with
      | none => none
      | some (key, r1) =>
        match skipWs r1 with
        | [] => none
        | c2 :: r2 =>
          if c2 = ':' then
            match pv r2 with
            | none => none
            | some (v, r3) =>
              match skipWs r3 with
              | [] => none
              | c4 :: r4 =>
                if c4 = ',' then some (acc ++ [(String.mk key, v)], .inl (skipWs r4))
                else if c4 = '}' then some (acc ++ [(String.mk key, v)], .inr r4)
                else none
          else none
    else none

/-- Parse the members of a JSON object (input positioned at the first key's
opening quote), given a parser `pv` for the member values. -/
def parseMembers (pv : List Char → Option (Json × List Char)) :
    Nat → List Char → List (String × Json) → Option (Json × List Char)
  | 0, _, _ => none
  | fuel + 1, l, acc =>
    match parseMemberOne pv l acc with
    | none => none
    | some (acc2, .inl l2) => parseMembers pv fuel l2 acc2
    | some (acc2, .inr r) => some (.obj acc2, r)

/-- Parse the elements of a JSON array (input positioned at the first
element), given a parser `pv` for the element values. -/
def parseElems (pv : List Char → Option (Json × List Char)) :
    Nat → List Char → List Json → Option (Json × List Char)
  | 0, _, _ => none
  | fuel + 1, l, acc =>
    match pv l with
    | none => none
    | some (v, r) =>
      match skipWs r with
      | [] => none
      | c2 :: r2 =>
        if c2 = ',' then parseElems pv fuel r2 (acc ++ [v])
        else if c2 = ']' then some (.arr (acc ++ [v]), r2)
        else none

/-- Parse one JSON value, returning it together with the unconsumed input. -/
def parseValue : Nat → List Char → Option (Json × List Char)
  | 0, _ => none
  | fuel + 1, l =>
    match skipWs l with
    | [] => none
    | c :: rest =>
      if c = '"' then
        (parseStringBody (rest.length + 1) rest).map
          (fun p => (Json.str (String.mk p.1), p.2))
      else if c = '{' then
        match skipWs rest with
        | [] => none
        | c2 :: r2 =>
          if c2 = '}' then some (.obj [], r2)
          else parseMembers (fun l2 => parseValue fuel l2) fuel (c2 :: r2) []
      else if c = '[' then
        match skipWs rest with
        | [] => none
        | c2 :: r2 =>
          if c2 = ']' then some (.arr [], r2)
          else parseElems (fun l2 => parseValue fuel l2) fuel (c2 :: r2) []
      else if c = 'n' then
        match rest with
        | 'u' :: 'l' :: 'l' :: r => some (.null, r)
        | _ => none
      else if c = 't' then
        match rest with
        | 'r' :: 'u' :: 'e' :: r => some (.boolean true, r)
        | _ => none
      else if c = 'f' then
        match rest with
        | 'a' :: 'l' :: 's' :: 'e' :: r => some (.boolean false, r)
        | _ => none
      else (parseNumber (c :: rest)).map (fun p => (Json.number (String.mk p.1), p.2))

/-- Model of `JSON.parse`: parse a complete JSON document; `none` models the thrown
`SyntaxError` on unparseable input. -/
def parseJson (s : String) : Option Json :=
  match parseValue (s.length + 1) s.toList with
  | some (j, rest) => if skipWs rest = [] then some j else none
  | none => none

/-! ### Data model (`src/types`: the `User` interface; the `users` table rows) -/

/-- The `User` shape built in `login` and persisted to local storage:
`{ id, name, username, role, created_at }`.  All fields are modelled as
strings; `role` is a plain string because TypeScript's `'admin' | 'staff'`
annotation performs no runtime check on data coming from the store. -/
structure User where
  id : String
  name : String
  username : String
  role : String
  created_at : String
deriving DecidableEq

/-- A row of the external `users` table as returned by
`supabase.from('users').select('*').eq('username', u).single()`. -/
structure UserRecord where
  id : String
  name : String
  username : String
  role : String
  password : String
  created_at : String
deriving DecidableEq

/-- The `userData` object literal that `login` builds from the looked-up row:
exactly the row's `id`, `name`, `username`, `role`, `created_at`. -/
def mkUser (r : UserRecord) : User :=
  { id := r.id, name := r.name, username := r.username, role := r.role,
    created_at := r.created_at }

/-- The JSON object value corresponding to a `User`, with the key order of the
object literal in the source. -/
def userToJson (u : User) : Json :=
  .obj [("id", .str u.id), ("name", .str u.name), ("username", .str u.username),
        ("role", .str u.role), ("created_at", .str u.created_at)]

/-- Tail of the serialized user object starting at the `created_at` key. -/
def ujSeg5 (u : User) : List Char :=
  '"' :: 'c' :: 'r' :: 'e' :: 'a' :: 't' :: 'e' :: 'd' :: '_' :: 'a' :: 't' :: '"' :: ':' :: '"' ::
    (escChars u.created_at.toList ++ ('"' :: '}' :: []))

/-- Tail of the serialized user object starting at the `role` key. -/
def ujSeg4 (u : User) : List Char :=
  '"' :: 'r' :: 'o' :: 'l' :: 'e' :: '"' :: ':' :: '"' ::
    (escChars u.role.toList ++ ('"' :: ',' :: ujSeg5 u))

/-- Tail of the serialized user object starting at the `username` key. -/
def ujSeg3 (u : User) : List Char :=
  '"' :: 'u' :: 's' :: 'e' :: 'r' :: 'n' :: 'a' :: 'm' :: 'e' :: '"' :: ':' :: '"' ::
    (escChars u.username.toList ++ ('"' :: ',' :: ujSeg4 u))

/-- Tail of the serialized user object starting at the `name` key. -/
def ujSeg2 (u : User) : List Char :=
  '"' :: 'n' :: 'a' :: 'm' :: 'e' :: '"' :: ':' :: '"' ::
    (escChars u.name.toList ++ ('"' :: ',' :: ujSeg3 u))

/-- The serialized user object starting at the `id` key. -/
def ujSeg1 (u : User) : List Char :=
  '"' :: 'i' :: 'd' :: '"' :: ':' :: '"' ::
    (escChars u.id.toList ++ ('"' :: ',' :: ujSeg2 u))

/-- The character sequence produced by `JSON.stringify(userData)`:
`{"id":"…","name":"…","username":"…","role":"…","created_at":"…"}` with each
field value escaped (no whitespace is emitted, and the key order is the
declaration order of the object literal in `login`). -/
def userJsonChars (u : User) : List Char :=
  '{' :: ujSeg1 u

/-- Serialization of the user object as a string, modelling the result of
`JSON.stringify(userData)`. -/
def stringifyUser (u : User) : String :=
  String.mk (userJsonChars u)

/-! ### Session state

The component's state: the `user` React state, the `isLoading` React state,
and the value stored in local storage under the fixed key `tobaku_user`
(the only key the component ever touches).  `currentUser` is an `Option Json`
because the startup restore assigns the raw result of `JSON.parse` to the
user state without validation. -/

/-- The fixed local-storage key. -/
def storageKey : String := "tobaku_user"

structure Session where
  currentUser : Option Json
  isLoading : Bool
  /-- The value under `storageKey` in local storage, if present. -/
  storage : Option String

/-! ### Oracle inputs for the external store

The Supabase client is an opaque external dependency; each call's response is
supplied as an explicit input covering every observable outcome. -/

/-- Outcome of `supabase.from('users').select('*').eq('username', u).single()`
as observed by `login`: a row, an error object carrying a `code` (the code
`PGRST116` is the "no rows" case), or a thrown exception (the `catch` path). -/
inductive LookupResult where
  | ok (rec : UserRecord)
  | err (code : String)
  | exn

/-- Outcome of the `signup` existence check
`supabase.from('users').select('username').eq('username', u).single()`:
the code only looks at whether `data` is non-null (errors are discarded by
the destructuring), so the cases are "a row was found", "no row / error",
and a thrown exception. -/
inductive CheckResult where
  | found
  | notFound
  | exn

/-- Outcome of the `signup` insert call. -/
inductive InsertResult where
  | ok
  | err
  | exn

/-! ### Operations (from `src/src/context/AuthContext.tsx`) -/

/-- The startup restore effect: read `storageKey` and run `if (savedUser)`.
The branch is skipped when the value is absent (`getItem` returned `null`) or
is the empty string — both falsy in JavaScript — leaving the session empty
and the stored value untouched.  Otherwise `JSON.parse` it inside `try`,
assigning the parsed value on success and deleting the key on parse failure;
finally set `isLoading` to `false`.  The function is total: the parse failure
(`JSON.parse` throwing) is the `none` branch, caught by the source's
`catch`. -/
def restore (stored : Option String) : Session :=
  match stored with
  | none => { currentUser := none, isLoading := false, storage := none }
  | some raw =>
    if raw = "" then { currentUser := none, isLoading := false, storage := some raw }
    else
      match parseJson raw with
      | some j => { currentUser := some j, isLoading := false, storage := some raw }
      | none => { currentUser := none, isLoading := false, storage := none }

/-- Model of `login(username, password)` in `src/src/context/AuthContext.tsx`:
on a lookup error (any code, including `PGRST116` "not found") it only shows a
toast and returns `false`; on a row it compares `users.password === password`;
on a match it sets the user state to the `userData` object, writes
`JSON.stringify(userData)` under `storageKey`, and returns `true`; on a
mismatch it returns `false`; a thrown exception is caught and returns `false`;
the `finally` clause resets `isLoading`.  Returns the resolved boolean and the
state after the call completes. -/
def login (resp : LookupResult) (username password : String) (s : Session) :
    Bool × Session :=
  match resp with
  | .err _ => (false, { s with isLoading := false })
  | .exn => (false, { s with isLoading := false })
  | .ok rec =>
    if rec.password = password then
      let u := mkUser rec
      (true, { currentUser := some (userToJson u), isLoading := false,
               storage := some (stringifyUser u) })
    else
      (false, { s with isLoading := false })

/-- Model of `login` in the variant file `unnamed/part_000`: the lookup error branch
only logs and returns `false`; `isValidPassword` is the hard-coded check
`(username === 'admin' && password === 'admin123') ||
 (username === 'staff' && password === 'staff123')` — the looked-up row's
`password` field is not consulted.  Success behaves like the main variant. -/
def loginV0 (resp : LookupResult) (username password : String) (s : Session) :
    Bool × Session :=
  match resp with
  | .err _ => (false, { s with isLoading := false })
  | .exn => (false, { s with isLoading := false })
  | .ok rec =>
    if (username = "admin" && password = "admin123")
        || (username = "staff" && password = "staff123") then
      let u := mkUser rec
      (true, { currentUser := some (userToJson u), isLoading := false,
               storage := some (stringifyUser u) })
    else
      (false, { s with isLoading := false })

/-- The argument object of `signup`. -/
structure SignupInput where
  name : String
  username : String
  password : String
  role : String
deriving DecidableEq

/-- Model of `signup(userData)`: if the existence check finds a row, toast and return
`false` without inserting; otherwise insert
`{ name, username, password, role }` and return `true` on success, `false` on
an insert error; exceptions are caught and return `false`; `finally` resets
`isLoading`.  The third component records the row sent to the store by the
insert call, if that call was issued at all. -/
def signup (check : CheckResult) (ins : InsertResult) (ud : SignupInput)
    (s : Session) : Bool × Session × Option SignupInput :=
  match check with
  | .exn => (false, { s with isLoading := false }, none)
  | .found => (false, { s with isLoading := false }, none)
  | .notFound =>
    match ins with
    | .ok => (true, { s with isLoading := false }, some ud)
    | .err => (false, { s with isLoading := false }, some ud)
    | .exn => (false, { s with isLoading := false }, some ud)

/-- Model of `logout()`: synchronously clear the user state and remove `storageKey`;
no store oracle is consumed because the source makes no remote call, and the
function is total (it cannot fail). -/
def logout (s : Session) : Session :=
  { s with currentUser := none, storage := none }

/-! ### Round-trip: `parseJson (stringifyUser u) = some (userToJson u)`

This is the fact behind the source's reliance on `JSON.parse` on startup
recovering exactly the `userData` object it wrote with `JSON.stringify`. -/

theorem hexVal_hexDigitChar : ∀ m, m < 16 → hexVal (hexDigitChar m) = some m := by decide

/-- Unfolding step: a plain (unescaped) character inside a string literal. -/
theorem psb_plain (f : Nat) (c : Char) (l : List Char)
    (h1 : ¬c = '"') (h2 : ¬c = '\\') (h3 : ¬c.toNat < 32) :
    parseStringBody (f + 1) (c :: l) =
      (parseStringBody f l).map (fun p => (c :: p.1, p.2)) := by
  simp only [parseStringBody]
  rw [if_neg h1, if_neg h2, if_neg h3]

/-- Unfolding step: a single-character escape. -/
theorem psb_esc (f : Nat) (e c2 : Char) (l : List Char)
    (hu : ¬e = 'u') (he : unescChar e = some c2) :
    parseStringBody (f + 1) ('\\' :: e :: l) =
      (parseStringBody f l).map (fun p => (c2 :: p.1, p.2)) := by
  simp only [parseStringBody, if_true]
  rw [if_neg hu, he]
  simp

/-- Unfolding step: a `\uXXXX` escape. -/
theorem psb_hex (f : Nat) (a b c3 d : Char) (l : List Char) (x y z w : Nat)
    (ha : hexVal a = some x) (hb : hexVal b = some y)
    (hc : hexVal c3 = some z) (hd : hexVal d = some w) :
    parseStringBody (f + 1) ('\\' :: 'u' :: a :: b :: c3 :: d :: l) =
      (parseStringBody f l).map
        (fun p => (Char.ofNat (((x * 16 + y) * 16 + z) * 16 + w) :: p.1, p.2)) := by
  simp only [parseStringBody, if_true]
  rw [ha, hb, hc, hd]
  simp

/-- Parsing a string-literal body inverts the `JSON.stringify` escape, for any
fuel margin `n`. -/
theorem parseStringBody_escChars (s : List Char) : ∀ (n : Nat) (rest : List Char),
    parseStringBody (n + s.length + 1) (escChars s ++ '"' :: rest) = some (s, rest) := by
  induction s with
  | nil => intro n rest; exact rfl
  | cons c cs ih =>
    intro n rest
    have hfuel : n + (c :: cs).length + 1 = (n + cs.length + 1) + 1 := by
      simp [List.length_cons]; omega
    rw [hfuel]
    by_cases h1 : c = '"'
    · subst h1
      rw [show escChars ('"' :: cs) ++ '"' :: rest =
            '\\' :: '"' :: (escChars cs ++ '"' :: rest) from rfl,
          psb_esc _ '"' '"' _ (by decide) rfl, ih]
      rfl
    by_cases h2 : c = '\\'
    · subst h2
      rw [show escChars ('\\' :: cs) ++ '"' :: rest =
            '\\' :: '\\' :: (escChars cs ++ '"' :: rest) from rfl,
          psb_esc _ '\\' '\\' _ (by decide) rfl, ih]
      rfl
    by_cases h3 : c = '\x08'
    · subst h3
      rw [show escChars ('\x08' :: cs) ++ '"' :: rest =
            '\\' :: 'b' :: (escChars cs ++ '"' :: rest) from rfl,
          psb_esc _ 'b' '\x08' _ (by decide) rfl, ih]
      rfl
    by_cases h4 : c = '\x0c'
    · subst h4
      rw [show escChars ('\x0c' :: cs) ++ '"' :: rest =
            '\\' :: 'f' :: (escChars cs ++ '"' :: rest) from rfl,
          psb_esc _ 'f' '\x0c' _ (by decide) rfl, ih]
      rfl
    by_cases h5 : c = '\n'
    · subst h5
      rw [show escChars ('\n' :: cs) ++ '"' :: rest =
            '\\' :: 'n' :: (escChars cs ++ '"' :: rest) from rfl,
          psb_esc _ 'n' '\n' _ (by decide) rfl, ih]
      rfl
    by_cases h6 : c = '\r'
    · subst h6
      rw [show escChars ('\r' :: cs) ++ '"' :: rest =
            '\\' :: 'r' :: (escChars cs ++ '"' :: rest) from rfl,
          psb_esc _ 'r' '\r' _ (by decide) rfl, ih]
      rfl
    by_cases h7 : c = '\t'
    · subst h7
      rw [show escChars ('\t' :: cs) ++ '"' :: rest =
            '\\' :: 't' :: (escChars cs ++ '"' :: rest) from rfl,
          psb_esc _ 't' '\t' _ (by decide) rfl, ih]
      rfl
    by_cases h8 : c.toNat < 32
    · have hesc : escChars (c :: cs) ++ '"' :: rest =
          '\\' :: 'u' :: '0' :: '0' :: hexDigitChar (c.toNat / 16) ::
            hexDigitChar (c.toNat % 16) :: (escChars cs ++ '"' :: rest) := by
        simp only [escChars, escapeChar, if_neg h1, if_neg h2, if_neg h3, if_neg h4,
          if_neg h5, if_neg h6, if_neg h7, if_pos h8, List.cons_append, List.nil_append]
      have hdiv : c.toNat / 16 < 16 := by omega
      have hmod : c.toNat % 16 < 16 := by omega
      rw [hesc, psb_hex _ '0' '0' (hexDigitChar (c.toNat / 16)) (hexDigitChar (c.toNat % 16)) _
            0 0 (c.toNat / 16) (c.toNat % 16) rfl rfl
            (hexVal_hexDigitChar _ hdiv) (hexVal_hexDigitChar _ hmod), ih]
      have harith : ((0 * 16 + 0) * 16 + c.toNat / 16) * 16 + c.toNat % 16 = c.toNat := by
        omega
      rw [harith, Char.ofNat_toNat]
      rfl
    · have hesc : escChars (c :: cs) ++ '"' :: rest = c :: (escChars cs ++ '"' :: rest) := by
        simp only [escChars, escapeChar, if_neg h1, if_neg h2, if_neg h3, if_neg h4,
          if_neg h5, if_neg h6, if_neg h7, if_neg h8, List.cons_append, List.nil_append]
      rw [hesc, psb_plain _ _ _ h1 h2 h8, ih]
      rfl

theorem escapeChar_length_pos (c : Char) : 1 ≤ (escapeChar c).length := by
  unfold escapeChar
  repeat' split
  all_goals simp

theorem length_le_escChars (s : List Char) : s.length ≤ (escChars s).length := by
  induction s with
  | nil => simp [escChars]
  | cons c cs ih =>
    have := escapeChar_length_pos c
    simp only [escChars, List.length_append, List.length_cons]
    omega

/-- Parsing a serialized string literal (with its closing quote) as a JSON
value yields exactly the original string. -/
theorem parseValue_strLit (f : Nat) (s rest : List Char) :
    parseValue (f + 1) ('"' :: (escChars s ++ '"' :: rest)) =
      some (.str (String.mk s), rest) := by
  have h0 : parseValue (f + 1) ('"' :: (escChars s ++ '"' :: rest)) =
      (parseStringBody ((escChars s ++ '"' :: rest).length + 1)
        (escChars s ++ '"' :: rest)).map (fun p => (Json.str (String.mk p.1), p.2)) := rfl
  have hlen : (escChars s ++ '"' :: rest).length + 1 =
      (((escChars s).length - s.length) + rest.length + 1) + s.length + 1 := by
    have := length_le_escChars s
    simp only [List.length_append, List.length_cons]
    omega
  rw [h0, hlen, parseStringBody_escChars]
  rfl

/-- Evaluate one object member whose value is a serialized string and which is
followed by a comma. -/
theorem parseMemberOne_comma (pv : List Char → Option (Json × List Char))
    (kr key vl after : List Char) (acc : List (String × Json))
    (hk : parseStringBody (kr.length + 1) kr =
      some (key, ':' :: '"' :: (escChars vl ++ '"' :: ',' :: after)))
    (hv : pv ('"' :: (escChars vl ++ '"' :: ',' :: after)) =
      some (.str (String.mk vl), ',' :: after)) :
    parseMemberOne pv ('"' :: kr) acc =
      some (acc ++ [(String.mk key, .str (String.mk vl))], .inl (skipWs after)) := by
  simp only [parseMemberOne]
  rw [hk]
  simp [skipWs, wsChar, hv]

/-- Evaluate the final object member (followed by the closing brace). -/
theorem parseMemberOne_last (pv : List Char → Option (Json × List Char))
    (kr key vl after : List Char) (acc : List (String × Json))
    (hk : parseStringBody (kr.length + 1) kr =
      some (key, ':' :: '"' :: (escChars vl ++ '"' :: '}' :: after)))
    (hv : pv ('"' :: (escChars vl ++ '"' :: '}' :: after)) =
      some (.str (String.mk vl), '}' :: after)) :
    parseMemberOne pv ('"' :: kr) acc =
      some (acc ++ [(String.mk key, .str (String.mk vl))], .inr after) := by
  simp only [parseMemberOne]
  rw [hk]
  simp [skipWs, wsChar, hv]

theorem parseMembers_step (pv : List Char → Option (Json × List Char)) (m : Nat)
    (l : List Char) (acc acc2 : List (String × Json)) (l2 : List Char)
    (h : parseMemberOne pv l acc = some (acc2, .inl l2)) :
    parseMembers pv (m + 1) l acc = parseMembers pv m l2 acc2 := by
  simp only [parseMembers]
  rw [h]

theorem parseMembers_done (pv : List Char → Option (Json × List Char)) (m : Nat)
    (l : List Char) (acc acc2 : List (String × Json)) (r : List Char)
    (h : parseMemberOne pv l acc = some (acc2, .inr r)) :
    parseMembers pv (m + 1) l acc = some (.obj acc2, r) := by
  simp only [parseMembers]
  rw [h]

/-- Parsing the serialized user object yields exactly `userToJson u`, for any
fuel margin. -/
theorem parseValue_userJsonChars (u : User) (n : Nat) :
    parseValue (n + 7) (userJsonChars u) = some (userToJson u, []) := by
  have hm1 : parseMemberOne (fun l => parseValue (n + 6) l) (ujSeg1 u) [] =
      some ([("id", Json.str u.id)], .inl (ujSeg2 u)) :=
    parseMemberOne_comma _ _ ['i', 'd'] u.id.toList (ujSeg2 u) [] rfl
      (parseValue_strLit (n + 5) u.id.toList (',' :: ujSeg2 u))
  have hm2 : parseMemberOne (fun l => parseValue (n + 6) l) (ujSeg2 u)
      [("id", Json.str u.id)] =
      some ([("id", Json.str u.id), ("name", Json.str u.name)], .inl (ujSeg3 u)) :=
    parseMemberOne_comma _ _ ['n', 'a', 'm', 'e'] u.name.toList (ujSeg3 u)
      [("id", Json.str u.id)] rfl
      (parseValue_strLit (n + 5) u.name.toList (',' :: ujSeg3 u))
  have hm3 : parseMemberOne (fun l => parseValue (n + 6) l) (ujSeg3 u)
      [("id", Json.str u.id), ("name", Json.str u.name)] =
      some ([("id", Json.str u.id), ("name", Json.str u.name),
             ("username", Json.str u.username)], .inl (ujSeg4 u)) :=
    parseMemberOne_comma _ _ ['u', 's', 'e', 'r', 'n', 'a', 'm', 'e'] u.username.toList
      (ujSeg4 u) [("id", Json.str u.id), ("name", Json.str u.name)] rfl
      (parseValue_strLit (n + 5) u.username.toList (',' :: ujSeg4 u))
  have hm4 : parseMemberOne (fun l => parseValue (n + 6) l) (ujSeg4 u)
      [("id", Json.str u.id), ("name", Json.str u.name),
       ("username", Json.str u.username)] =
      some ([("id", Json.str u.id), ("name", Json.str u.name),
             ("username", Json.str u.username), ("role", Json.str u.role)],
            .inl (ujSeg5 u)) :=
    parseMemberOne_comma _ _ ['r', 'o', 'l', 'e'] u.role.toList (ujSeg5 u)
      [("id", Json.str u.id), ("name", Json.str u.name),
       ("username", Json.str u.username)] rfl
      (parseValue_strLit (n + 5) u.role.toList (',' :: ujSeg5 u))
  have hm5 : parseMemberOne (fun l => parseValue (n + 6) l) (ujSeg5 u)
      [("id", Json.str u.id), ("name", Json.str u.name),
       ("username", Json.str u.username), ("role", Json.str u.role)] =
      some ([("id", Json.str u.id), ("name", Json.str u.name),
             ("username", Json.str u.username), ("role", Json.str u.role),
             ("created_at", Json.str u.created_at)], .inr []) :=
    parseMemberOne_last _ _ ['c', 'r', 'e', 'a', 't', 'e', 'd', '_', 'a', 't']
      u.created_at.toList []
      [("id", Json.str u.id), ("name", Json.str u.name),
       ("username", Json.str u.username), ("role", Json.str u.role)] rfl
      (parseValue_strLit (n + 5) u.created_at.toList ('}' :: []))
  calc parseValue (n + 7) (userJsonChars u)
      = parseMembers (fun l => parseValue (n + 6) l) (n + 6) (ujSeg1 u) [] := rfl
    _ = parseMembers (fun l => parseValue (n + 6) l) (n + 5) (ujSeg2 u)
          [("id", Json.str u.id)] :=
        parseMembers_step _ (n + 5) _ _ _ _ hm1
    _ = parseMembers (fun l => parseValue (n + 6) l) (n + 4) (ujSeg3 u)
          [("id", Json.str u.id), ("name", Json.str u.name)] :=
        parseMembers_step _ (n + 4) _ _ _ _ hm2
    _ = parseMembers (fun l => parseValue (n + 6) l) (n + 3) (ujSeg4 u)
          [("id", Json.str u.id), ("name", Json.str u.name),
           ("username", Json.str u.username)] :=
        parseMembers_step _ (n + 3) _ _ _ _ hm3
    _ = parseMembers (fun l => parseValue (n + 6) l) (n + 2) (ujSeg5 u)
          [("id", Json.str u.id), ("name", Json.str u.name),
           ("username", Json.str u.username), ("role", Json.str u.role)] :=
        parseMembers_step _ (n + 2) _ _ _ _ hm4
    _ = some (.obj [("id", Json.str u.id), ("name", Json.str u.name),
           ("username", Json.str u.username), ("role", Json.str u.role),
           ("created_at", Json.str u.created_at)], []) :=
        parseMembers_done _ (n + 1) _ _ _ _ hm5
    _ = some (userToJson u, []) := rfl

/-- Round-trip: `JSON.parse` applied to `JSON.stringify(userData)` recovers
exactly the user object. -/
theorem parseJson_stringifyUser (u : User) :
    parseJson (stringifyUser u) = some (userToJson u) := by
  have hlen6 : 6 ≤ (userJsonChars u).length := by
    simp [userJsonChars, ujSeg1, List.length_cons, List.length_append]
  have heq : (stringifyUser u).length + 1 = ((userJsonChars u).length - 6) + 7 := by
    have h7 : (stringifyUser u).length = (userJsonChars u).length := rfl
    omega
  unfold parseJson
  rw [show (stringifyUser u).toList = userJsonChars u from rfl, heq,
      parseValue_userJsonChars]
  rfl

/-! ### Session invariant (spec §3) -/

/-- A JSON value that is the serialization shape of a fully-populated `User`
with a non-empty `username` and a `role` in the closed set. -/
def GoodUserJson (j : Json) : Prop :=
  ∃ u : User, j = userToJson u ∧ u.username ≠ "" ∧ (u.role = "admin" ∨ u.role = "staff")

/-- The spec's session invariant: `currentUser` is absent or a fully-populated
`User` with non-empty `username` and `role ∈ {admin, staff}`. -/
def SessionInv (s : Session) : Prop :=
  ∀ j, s.currentUser = some j → GoodUserJson j

/-- A store row with a non-empty `username` and a `role` in the closed set. -/
def GoodRec (r : UserRecord) : Prop :=
  r.username ≠ "" ∧ (r.role = "admin" ∨ r.role = "staff")

theorem userToJson_inj {a b : User} (h : userToJson a = userToJson b) : a = b := by
  cases a; cases b
  simp only [userToJson, Json.obj.injEq, List.cons.injEq, Prod.mk.injEq,
    Json.str.injEq, and_true, true_and] at h
  simp_all

/-! ### Claims -/

/-- C1: when the store lookup returns a record, `login` resolves `true` iff
the record's stored `password` equals the supplied password by direct string
equality, and on `true` it sets `currentUser` to the `User` built from exactly
the record's `id`, `name`, `username`, `role`, `created_at` and writes that
user's JSON serialization to local storage under the fixed key. -/
theorem login_true_iff_password (rec : UserRecord) (username password : String)
    (s : Session) :
    ((login (.ok rec) username password s).1 = true ↔ rec.password = password) ∧
    ((login (.ok rec) username password s).1 = true →
      (login (.ok rec) username password s).2.currentUser =
        some (userToJson (mkUser rec)) ∧
      (login (.ok rec) username password s).2.storage =
        some (stringifyUser (mkUser rec))) := by
  by_cases h : rec.password = password <;> simp [login, h]

/-- Witness for C1 at a concrete matching record. -/
theorem login_true_iff_password_witness :
    (login (.ok ⟨"1", "Admin", "admin", "admin", "pw", "t"⟩) "admin" "pw"
        (restore none)).2.currentUser =
      some (userToJson (mkUser ⟨"1", "Admin", "admin", "admin", "pw", "t"⟩)) ∧
    (login (.ok ⟨"1", "Admin", "admin", "admin", "pw", "t"⟩) "admin" "pw"
        (restore none)).2.storage =
      some (stringifyUser (mkUser ⟨"1", "Admin", "admin", "admin", "pw", "t"⟩)) :=
  (login_true_iff_password ⟨"1", "Admin", "admin", "admin", "pw", "t"⟩ "admin" "pw"
    (restore none)).2 (by decide)

/-- C2: whenever `login` resolves `false` (lookup error including not-found,
password mismatch, or a caught exception), `currentUser` and the persisted
snapshot are unchanged from their values before the call. -/
theorem login_false_preserves_session (resp : LookupResult)
    (username password : String) (s : Session)
    (h : (login resp username password s).1 = false) :
    (login resp username password s).2.currentUser = s.currentUser ∧
    (login resp username password s).2.storage = s.storage := by
  cases resp with
  | err code => simp [login]
  | exn => simp [login]
  | ok rec =>
    by_cases hp : rec.password = password
    · simp [login, hp] at h
    · simp [login, hp]

/-- Witness for C2 at a concrete password mismatch. -/
theorem login_false_preserves_session_witness :
    (login (.ok ⟨"1", "Admin", "admin", "admin", "pw", "t"⟩) "admin" "wrong"
        (restore none)).2.currentUser = (restore none).currentUser ∧
    (login (.ok ⟨"1", "Admin", "admin", "admin", "pw", "t"⟩) "admin" "wrong"
        (restore none)).2.storage = (restore none).storage :=
  login_false_preserves_session (.ok ⟨"1", "Admin", "admin", "admin", "pw", "t"⟩)
    "admin" "wrong" (restore none) (by decide)

/-- C3 counterexample: the code never validates the data it assigns to
`currentUser`.  Starting from the empty session (which satisfies the
invariant), a `login` against a store row whose `username` is empty succeeds
and yields a session violating the invariant; likewise a startup restore of
the stored snapshot `"5"` (valid JSON, not a user object) yields a
`currentUser` that is not a `User` at all. -/
theorem session_invariant_counterexample :
    SessionInv (restore none) ∧
    ¬ SessionInv (login (.ok ⟨"1", "name", "", "admin", "pw", "t"⟩) "" "pw"
        (restore none)).2 ∧
    ¬ SessionInv (restore (some "5")) := by
  refine ⟨?_, ?_, ?_⟩
  · intro j hj
    simp [restore] at hj
  · intro hinv
    have hj : (login (.ok ⟨"1", "name", "", "admin", "pw", "t"⟩) "" "pw"
        (restore none)).2.currentUser =
        some (userToJson ⟨"1", "name", "", "admin", "t"⟩) := rfl
    obtain ⟨u, hju, huser, _⟩ := hinv _ hj
    cases userToJson_inj hju
    exact huser rfl
  · intro hinv
    have hj : (restore (some "5")).currentUser = some (.number "5") := rfl
    obtain ⟨u, hju, _, _⟩ := hinv _ hj
    simp [userToJson] at hju

/-- C3 (amended): the session invariant is preserved by `login` provided every
record the lookup can return has a non-empty `username` and a `role` in
`{admin, staff}`, by `signup` and `logout` unconditionally, and by startup
restore provided the stored snapshot parses to the JSON of such a user; the
code itself performs no validation. -/
theorem session_invariant_preserved :
    (∀ resp username password s, (∀ rec, resp = .ok rec → GoodRec rec) →
      SessionInv s → SessionInv (login resp username password s).2) ∧
    (∀ chk ins ud s, SessionInv s → SessionInv (signup chk ins ud s).2.1) ∧
    (∀ s, SessionInv s → SessionInv (logout s)) ∧
    (∀ raw, (∀ j, parseJson raw = some j → GoodUserJson j) →
      SessionInv (restore (some raw))) ∧
    SessionInv (restore none) := by
  refine ⟨?_, ?_, ?_, ?_, ?_⟩
  · intro resp username password s hgood hs
    cases resp with
    | err code => intro j hj; exact hs j hj
    | exn => intro j hj; exact hs j hj
    | ok rec =>
      by_cases hp : rec.password = password
      · intro j hj
        simp [login, hp] at hj
        obtain ⟨hu, hr⟩ := hgood rec rfl
        exact ⟨mkUser rec, hj.symm, hu, hr⟩
      · intro j hj
        simp [login, hp] at hj
        exact hs j hj
  · intro chk ins ud s hs j hj
    cases chk <;> cases ins <;> exact hs j hj
  · intro s hs j hj
    simp [logout] at hj
  · intro raw hgood j hj
    simp only [restore] at hj
    by_cases hraw : raw = ""
    · rw [if_pos hraw] at hj
      simp at hj
    · rw [if_neg hraw] at hj
      cases hpj : parseJson raw with
      | none => rw [hpj] at hj; simp at hj
      | some j2 =>
        rw [hpj] at hj
        simp at hj
        subst hj
        exact hgood _ hpj
  · intro j hj
    simp [restore] at hj

/-- Witness for the amended C3 at concrete inputs for each operation. -/
theorem session_invariant_preserved_witness :
    SessionInv (login (.ok ⟨"1", "Admin", "admin", "admin", "pw", "t"⟩) "admin" "pw"
        (restore none)).2 ∧
    SessionInv (signup .notFound .ok ⟨"N", "new", "pw", "staff"⟩ (restore none)).2.1 ∧
    SessionInv (logout (restore none)) ∧
    SessionInv (restore (some (stringifyUser ⟨"1", "Admin", "admin", "admin", "t"⟩))) := by
  have hinit : SessionInv (restore none) := session_invariant_preserved.2.2.2.2
  refine ⟨?_, ?_, ?_, ?_⟩
  · refine session_invariant_preserved.1 _ "admin" "pw" (restore none) ?_ hinit
    intro rec h
    cases h
    exact ⟨by decide, Or.inl rfl⟩
  · exact session_invariant_preserved.2.1 .notFound .ok _ (restore none) hinit
  · exact session_invariant_preserved.2.2.1 (restore none) hinit
  · refine session_invariant_preserved.2.2.2.1 _ ?_
    intro j hj
    rw [parseJson_stringifyUser] at hj
    obtain rfl : userToJson ⟨"1", "Admin", "admin", "admin", "t"⟩ = j :=
      Option.some.inj hj
    exact ⟨⟨"1", "Admin", "admin", "admin", "t"⟩, rfl, by decide, Or.inl rfl⟩

/-- C4 counterexample: the stored value `""` is not parseable as JSON
(`JSON.parse("")` throws), yet the source's JS truthiness check
`if (savedUser)` is falsy for `""` and skips the whole branch, so startup
restore leaves the stored key in place instead of deleting it (while
`currentUser` stays absent and `isLoading` ends `false`). -/
theorem restore_empty_string_keeps_key :
    parseJson "" = none ∧
    restore (some "") =
      { currentUser := none, isLoading := false, storage := some "" } ∧
    ¬(restore (some "")).storage = none :=
  ⟨rfl, rfl, by decide⟩

/-- C4 (amended): for every non-empty stored value that is not parseable as
JSON, startup restore leaves `currentUser` absent, deletes the stored key,
and ends with `isLoading` false (the parse failure is caught, so nothing is
thrown: `restore` is total); for the empty stored value — falsy under the
source's `if (savedUser)` — the branch is skipped, so `currentUser` is
likewise absent and `isLoading` false, but the stored key is left in place. -/
theorem restore_unparseable_amended :
    (∀ raw : String, parseJson raw = none → ¬raw = "" →
      restore (some raw) =
        { currentUser := none, isLoading := false, storage := none }) ∧
    restore (some "") =
      { currentUser := none, isLoading := false, storage := some "" } := by
  constructor
  · intro raw h hne
    simp [restore, h, hne]
  · rfl

/-- Witness for the amended C4 at a concrete non-empty non-JSON stored
value. -/
theorem restore_unparseable_amended_witness :
    parseJson "\x7binvalid" = none ∧ ¬"\x7binvalid" = "" ∧
    restore (some "\x7binvalid") =
      { currentUser := none, isLoading := false, storage := none } :=
  ⟨rfl, by decide, restore_unparseable_amended.1 "\x7binvalid" rfl (by decide)⟩

/-- C5: when the existence query finds a record with the same username,
`signup` resolves `false` and issues no insert into the external store. -/
theorem signup_duplicate_username (ins : InsertResult) (ud : SignupInput)
    (s : Session) :
    (signup .found ins ud s).1 = false ∧ (signup .found ins ud s).2.2 = none := by
  simp [signup]

/-- C6: `signup` never sets `currentUser` and never writes the persisted
snapshot: for every input and store response, both equal their values before
the call. -/
theorem signup_preserves_session (chk : CheckResult) (ins : InsertResult)
    (ud : SignupInput) (s : Session) :
    (signup chk ins ud s).2.1.currentUser = s.currentUser ∧
    (signup chk ins ud s).2.1.storage = s.storage := by
  cases chk <;> cases ins <;> simp [signup]

/-- C7: `logout` sets `currentUser` to absent and removes the persisted
snapshot key; it is a total function of the prior session alone (no store
oracle is consumed: no remote call, and no failure path exists). -/
theorem logout_clears_session (s : Session) :
    logout s = { currentUser := none, isLoading := s.isLoading, storage := none } := rfl

/-- C8: round-trip — for every successful `login`, parsing the JSON value it
persisted under the fixed key yields exactly the `User` (as its JSON object)
that the login set as `currentUser`. -/
theorem login_roundtrip (resp : LookupResult) (username password : String)
    (s : Session) (h : (login resp username password s).1 = true) :
    ∃ usr : User,
      (login resp username password s).2.currentUser = some (userToJson usr) ∧
      ((login resp username password s).2.storage).bind parseJson =
        some (userToJson usr) := by
  cases resp with
  | err code => simp [login] at h
  | exn => simp [login] at h
  | ok rec =>
    by_cases hp : rec.password = password
    · refine ⟨mkUser rec, ?_, ?_⟩
      · simp [login, hp]
      · simp [login, hp, Option.bind, parseJson_stringifyUser]
    · simp [login, hp] at h

/-- Witness for C8 at a concrete successful login. -/
theorem login_roundtrip_witness :
    ∃ usr : User,
      (login (.ok ⟨"1", "Admin", "admin", "admin", "pw", "t"⟩) "admin" "pw"
          (restore none)).2.currentUser = some (userToJson usr) ∧
      ((login (.ok ⟨"1", "Admin", "admin", "admin", "pw", "t"⟩) "admin" "pw"
          (restore none)).2.storage).bind parseJson = some (userToJson usr) :=
  login_roundtrip (.ok ⟨"1", "Admin", "admin", "admin", "pw", "t"⟩) "admin" "pw"
    (restore none) (by decide)

/-- C9: `isLoading` is `false` when `login` (either variant) or `signup`
completes, regardless of outcome — success, lookup error, password mismatch,
duplicate username, insert error, or a thrown exception — because the reset
sits in the `finally` clause. -/
theorem isLoading_false_on_completion :
    (∀ resp username password s, (login resp username password s).2.isLoading = false) ∧
    (∀ resp username password s, (loginV0 resp username password s).2.isLoading = false) ∧
    (∀ chk ins ud s, (signup chk ins ud s).2.1.isLoading = false) := by
  refine ⟨?_, ?_, ?_⟩
  · intro resp username password s
    cases resp with
    | err code => rfl
    | exn => rfl
    | ok rec => by_cases hp : rec.password = password <;> simp [login, hp]
  · intro resp username password s
    cases resp with
    | err code => rfl
    | exn => rfl
    | ok rec =>
      simp only [loginV0]
      split <;> rfl
  · intro chk ins ud s
    cases chk <;> cases ins <;> rfl

/-- C10: in the variant source `unnamed/part_000`, `login` resolves `true`
exactly when the lookup returned a record and the supplied pair is
`("admin", "admin123")` or `("staff", "staff123")`; the looked-up record's
stored `password` field is never consulted, so for any other username a login
with the record's correct stored password resolves `false`. -/
theorem loginV0_hardcoded_credentials :
    (∀ resp username password s,
      ((loginV0 resp username password s).1 = true ↔
        (∃ rec, resp = .ok rec) ∧
          ((username = "admin" ∧ password = "admin123") ∨
           (username = "staff" ∧ password = "staff123")))) ∧
    (∀ rec username s, ¬username = "admin" → ¬username = "staff" →
      (loginV0 (.ok rec) username rec.password s).1 = false) ∧
    (∀ rec q username password s,
      loginV0 (.ok { rec with password := q }) username password s =
        loginV0 (.ok rec) username password s) := by
  refine ⟨?_, ?_, ?_⟩
  · intro resp username password s
    cases resp with
    | err code => simp [loginV0]
    | exn => simp [loginV0]
    | ok rec =>
      simp only [loginV0, Bool.or_eq_true, Bool.and_eq_true, decide_eq_true_eq]
      by_cases hcred : (username = "admin" ∧ password = "admin123") ∨
          (username = "staff" ∧ password = "staff123")
      · rw [if_pos hcred]
        simp [hcred]
      · rw [if_neg hcred]
        simp [hcred]
  · intro rec username s h1 h2
    simp [loginV0, h1, h2]
  · intro rec q username password s
    simp [loginV0, mkUser]

/-- Witness for C10: a concrete non-hard-coded username with the record's own
stored password still fails. -/
theorem loginV0_hardcoded_credentials_witness :
    (loginV0 (.ok ⟨"2", "Bob", "bob", "staff", "hunter2", "t"⟩) "bob" "hunter2"
        (restore none)).1 = false :=
  loginV0_hardcoded_credentials.2.1 ⟨"2", "Bob", "bob", "staff", "hunter2", "t"⟩
    "bob" (restore none) (by decide) (by decide)
